import Mathlib

/-!
Shallow embedding of the ContentStudio_API backend (FastAPI glue layer over
cloud storage, a metadata store, a generative-media client and a message
queue), together with proofs about the claims of its specification.

Conventions of the embedding:
* Python `bytes` values are `List Nat` (each entry one byte).
* Python `str` values that undergo slicing/splitting are `List Char`
  (`Chars`); string literals are written `"...".data`.
* External SDK calls (GCS writes, Supabase inserts, the generation model,
  the Pub/Sub broker, PIL image decoding, `uuid4`) are modelled by explicit
  oracle parameters carrying their outcome, so every function is a pure,
  executable Lean function of its inputs and those outcomes.
* A Python method that catches every exception and returns a value is
  embedded as a total function; a method that lets exceptions escape is
  embedded with an `Except` result.
-/

namespace ContentStudio

abbrev Bytes := List Nat

abbrev Chars := List Char

/-! ## Generic list/string helpers used by the embedding -/

/-- Association-list lookup by key (models a key → blob map / Python dict
keyed lookup). The FIRST matching entry wins, so prepending an entry models
an overwriting write. -/
def slookup (k : Chars) : List (Chars × Bytes) → Option Bytes
  | [] => none
  | (k', v) :: rest => if k' = k then some v else slookup k rest

/-- Does `pat` occur as a contiguous substring of `s`? -/
def hasOccur (pat : Chars) : Chars → Bool
  | [] => decide (pat = [])
  | c :: rest => pat.isPrefixOf (c :: rest) || hasOccur pat rest

/-- Fuel-driven worker for `replaceAll`; the fuel is an upper bound on the
number of scanning steps and is irrelevant as long as it is at least the
length of the scanned list. -/
def replaceAllGo (pat rep : Chars) : Nat → Chars → Chars
  | _, [] => []
  | 0, s => s
  | fuel + 1, c :: rest =>
    if pat.isPrefixOf (c :: rest) then
      rep ++ replaceAllGo pat rep fuel ((c :: rest).drop pat.length)
    else
      c :: replaceAllGo pat rep fuel rest

/-- Embedding of Python `s.replace(pat, rep)`: replaces every non-overlapping
occurrence of `pat` in `s`, scanning left to right. The embedding is only
used with a non-empty `pat` (a bucket URL), which the guard records. -/
def replaceAll (s pat rep : Chars) : Chars :=
  if pat = [] then s else replaceAllGo pat rep s.length s

/-- Python `s.split(".")`. -/
def splitOnDot : Chars → List Chars
  | [] => [[]]
  | c :: rest =>
    match splitOnDot rest with
    | [] => [[]]
    | g :: gs => if c = '.' then [] :: g :: gs else (c :: g) :: gs

/-- Lexicographic (code-point) order on character lists; agrees with
Python `str` comparison, which `sorted` uses. -/
def lexLe : Chars → Chars → Bool
  | [], _ => true
  | _ :: _, [] => false
  | a :: as, b :: bs => if a < b then true else if a = b then lexLe as bs else false

/-- Scan to the first `'/'` and return everything after it; models
Python `s.split("/", 1)[1]`, with `none` for the `IndexError` case in which
no slash exists. -/
def afterFirstSlash : Chars → Option Chars
  | [] => none
  | c :: rest => if c = '/' then some rest else afterFirstSlash rest

/-! ## Base64 (Python `base64.b64encode` / `b64decode`, RFC 4648) -/

/-- The base64 alphabet: index 0–63 to character. -/
def b64c (n : Nat) : Char :=
  if n < 26 then Char.ofNat (65 + n)
  else if n < 52 then Char.ofNat (97 + (n - 26))
  else if n < 62 then Char.ofNat (48 + (n - 52))
  else if n = 62 then '+' else '/'

/-- Inverse of the base64 alphabet. -/
def b64v (c : Char) : Option Nat :=
  if c = '+' then some 62
  else if c = '/' then some 63
  else if 65 ≤ c.toNat ∧ c.toNat ≤ 90 then some (c.toNat - 65)
  else if 97 ≤ c.toNat ∧ c.toNat ≤ 122 then some (c.toNat - 97 + 26)
  else if 48 ≤ c.toNat ∧ c.toNat ≤ 57 then some (c.toNat - 48 + 52)
  else none

/-- Standard base64 of a byte sequence, with `=` padding. -/
def base64Encode : Bytes → Chars
  | [] => []
  | [a] => [b64c (a / 4), b64c (a % 4 * 16), '=', '=']
  | [a, b] => [b64c (a / 4), b64c (a % 4 * 16 + b / 16), b64c (b % 16 * 4), '=']
  | a :: b :: c :: rest =>
    b64c (a / 4) :: b64c (a % 4 * 16 + b / 16) :: b64c (b % 16 * 4 + c / 64) ::
      b64c (c % 64) :: base64Encode rest

/-- Standard base64 decoding (the inverse direction used to show the
round-trip loses no information). -/
def base64Decode : Chars → Option Bytes
  | [] => some []
  | c1 :: c2 :: c3 :: c4 :: rest =>
    if c3 = '=' ∧ c4 = '=' ∧ rest = [] then
      match b64v c1, b64v c2 with
      | some v1, some v2 => some [v1 * 4 + v2 / 16]
      | _, _ => none
    else if c4 = '=' ∧ rest = [] then
      match b64v c1, b64v c2, b64v c3 with
      | some v1, some v2, some v3 => some [v1 * 4 + v2 / 16, v2 % 16 * 16 + v3 / 4]
      | _, _, _ => none
    else
      match b64v c1, b64v c2, b64v c3, b64v c4, base64Decode rest with
      | some v1, some v2, some v3, some v4, some bs =>
        some ((v1 * 4 + v2 / 16) :: (v2 % 16 * 16 + v3 / 4) :: (v3 % 4 * 64 + v4) :: bs)
      | _, _, _, _, _ => none
  | _ => some []

/-! ## Object Storage Gateway (`app/services/storage_service.py`) -/

/-- State of the GCS-backed `StorageService`: whether the client constructed
(`clientOk`), the configured bucket, and the stored objects (key → bytes). -/
structure GCSState where
  clientOk : Bool
  bucketName : Chars
  objects : List (Chars × Bytes)
deriving DecidableEq

/-- The object key `upload_bytes` constructs: `f"{prefix}_{uuid4().hex[:8]}.{ext}"`,
with the random hex modelled by the explicit `hexv` argument. -/
def gcsFilename (pre hexv ext : Chars) : Chars :=
  pre ++ '_' :: hexv ++ '.' :: ext

/-- `f"https://storage.googleapis.com/{bucket_name}/"`, the public-URL
base that `upload_bytes` prepends and `download_image_as_base64` validates
and strips. -/
def bucketUrlBase (bucket : Chars) : Chars :=
  "https://storage.googleapis.com/".data ++ bucket ++ ['/']

/-- `StorageService.upload_bytes` (storage_service.py:20-33): raises when the
client is unavailable, writes the blob under the generated key and returns
the public URL; a write error (oracle `writeOk = false`) propagates. -/
def upload_bytes (s : GCSState) (data : Bytes) (pre ext contentType hexv : Chars)
    (writeOk : Bool) : Except Chars (GCSState × Chars) :=
  if s.clientOk = false then .error "Storage client not available".data
  else if writeOk = false then .error "GCS upload error".data
  else
    let filename := gcsFilename pre hexv ext
    .ok ({ s with objects := (filename, data) :: s.objects },
      bucketUrlBase s.bucketName ++ filename)

/-- `StorageService.download_image_as_base64` (storage_service.py:36-64):
returns `None` when the client is unavailable, when the URL lacks the bucket
prefix, or when the fetch raises (missing object); otherwise strips the
prefix with Python `str.replace` to recover the key, fetches the bytes and
returns their base64 text. -/
def download_image_as_base64 (s : GCSState) (imageUrl : Chars) : Option Chars :=
  if s.clientOk = false then none
  else
    let urlPre := bucketUrlBase s.bucketName
    if urlPre.isPrefixOf imageUrl = false then none
    else
      match slookup (replaceAll imageUrl urlPre []) s.objects with
      | none => none
      | some bs => some (base64Encode bs)

/-- Modelled from the spec: `StorageService.download_image_as_bytes` is
called at vertex_service.py:133, 171 and 217 but no definition of it appears
under src/ (src only carries the base64 variant). Spec 4.1:
`download(url) -> bytes | failure`: validates the URL has the expected
bucket-URL prefix; if not, returns a no-match failure; otherwise strips the
prefix to recover the key and fetches bytes (failure when the fetch fails). -/
def download_image_as_bytes (s : GCSState) (imageUrl : Chars) : Option Bytes :=
  if s.clientOk = false then none
  else
    let urlPre := bucketUrlBase s.bucketName
    if urlPre.isPrefixOf imageUrl = false then none
    else slookup (imageUrl.drop urlPre.length) s.objects

/-- The value minted by `StorageService.generate_signed_url`
(storage_service.py:66-68): a v4 signed URL for exactly the given object key
with a fixed 3600-second expiry; modelled by its two determining inputs. -/
structure SignedUrl where
  key : Chars
  expiration : Nat
deriving DecidableEq

/-- `StorageService.generate_signed_url` for a blob name. -/
def generate_signed_url (blobName : Chars) : SignedUrl :=
  { key := blobName, expiration := 3600 }

/-- `urllib.parse.urlparse(url).path`, restricted to the absolute
`https://netloc/...` URLs this codebase builds: drop the scheme, skip the
netloc up to the first `/`, and cut the path at the first `?` (query) or
`#` (fragment). -/
def urlPath (url : Chars) : Chars :=
  if "https://".data.isPrefixOf url then
    (((url.drop 8).dropWhile (fun c => !(c == '/'))).takeWhile
      (fun c => !(c == '?') && !(c == '#')))
  else []

/-- `parsed.path.lstrip("/").split("/", 1)[1]` as used by
`VertexGenerator._process_media` (vertex_service.py:85) and the
`/generate/assets` handler (routes.py:213-215): `none` models the
`IndexError` when no second segment exists. -/
def extractBlobName (url : Chars) : Option Chars :=
  afterFirstSlash ((urlPath url).dropWhile (fun c => c == '/'))

/-! ## Metadata Store Gateway (`app/services/supabase_service.py`) -/

/-- The metadata map `_save_asset` builds for an asset row
(vertex_service.py:45-58): size, format, mime, optional prompt, optional
product association, optional pixel dimensions. -/
structure AssetMeta where
  sizeBytes : Nat
  format : Chars
  mime : Chars
  promptText : Option Chars
  productId : Option Nat
  width : Option Nat
  height : Option Nat
deriving DecidableEq

/-- A row of the `assets` table, including the store-assigned identifier. -/
structure AssetRow where
  assetId : Nat
  userId : Chars
  atype : Chars
  source : Chars
  storagePath : Chars
  metadata : AssetMeta
deriving DecidableEq

/-- A row of the `products` table, including the store-assigned identifier. -/
structure ProductRow where
  productId : Nat
  pname : Chars
  category : Chars
  productType : Chars
  contentHash : Option Chars
deriving DecidableEq

/-- A row of the `templates` table as returned by the store. -/
structure TemplateRow where
  templateName : Chars
  category : Chars
  productType : Chars
  imageUrl : Chars
  promptText : Chars
deriving DecidableEq

/-- State of the Supabase-backed metadata store: client availability, the
stored rows, and the next store-assigned identifiers. -/
structure SupabaseState where
  clientOk : Bool
  assets : List AssetRow
  products : List ProductRow
  nextAssetId : Nat
  nextProductId : Nat
deriving DecidableEq

/-- Return channel of the gateway methods: a success value, the in-band
error-marker dictionary `\x7berror: msg\x7d`, or Python `None`. -/
inductive OpRet (α : Type) where
  | val (a : α)
  | marker (msg : Chars)
  | pynone
deriving DecidableEq

/-- Is the returned value the in-band error-marker dictionary? -/
def OpRet.isMarker {α : Type} : OpRet α → Bool
  | .marker _ => true
  | _ => false

/-- The message used by every `if not self.client` guard in the gateway. -/
def clientUnavailableMsg : Chars := "Supabase client not available".data

/-- `SupabaseService.upsert_template` (supabase_service.py:16-38): client
check, then the upsert; the backend outcome (returned rows or a raised
exception that the method converts to a marker) is the `backend` oracle. -/
def upsert_template (s : SupabaseState)
    (templateName category productType imageUrl promptText : Chars)
    (backend : Except Chars (List TemplateRow)) : OpRet (List TemplateRow) :=
  if s.clientOk = false then .marker clientUnavailableMsg
  else
    match backend with
    | .error e => .marker e
    | .ok rows => .val rows

/-- One step of the category-map accumulation inside
`SupabaseService.get_template_filters` (supabase_service.py:61-64): start a
new category with a one-element set, or add the product type to an existing
category's set (sets are modelled as duplicate-free lists). -/
def addPair (m : List (Chars × List Chars)) (c p : Chars) : List (Chars × List Chars) :=
  match m with
  | [] => [(c, [p])]
  | (c', l) :: rest =>
    if c' = c then (c', if p ∈ l then l else l ++ [p]) :: rest
    else (c', l) :: addPair rest c p

/-- The row loop of `get_template_filters` (supabase_service.py:56-64): each
fetched row contributes its `(category, product_type)` pair when both
`item.get` results are truthy (present and non-empty). -/
def collectPairs : List (Option Chars × Option Chars) →
    List (Chars × List Chars) → List (Chars × List Chars)
  | [], m => m
  | (some c, some p) :: rows, m =>
    collectPairs rows (if c = [] ∨ p = [] then m else addPair m c p)
  | _ :: rows, m => collectPairs rows m

/-- `get_template_filters`' result construction (supabase_service.py:67):
group the fetched pairs, then convert each category's set to a sorted list
(Python `sorted`, code-point lexicographic). -/
def buildFilters (rows : List (Option Chars × Option Chars)) :
    List (Chars × List Chars) :=
  (collectPairs rows []).map
    (fun cl => (cl.1, List.insertionSort (fun a b : Chars => lexLe a b = true) cl.2))

/-- `SupabaseService.get_template_filters` (supabase_service.py:40-73):
client check, fetch (oracle `backend` carries the fetched rows or the raised
exception), then the grouping above. -/
def get_template_filters (s : SupabaseState)
    (backend : Except Chars (List (Option Chars × Option Chars))) :
    OpRet (List (Chars × List Chars)) :=
  if s.clientOk = false then .marker clientUnavailableMsg
  else
    match backend with
    | .error e => .marker e
    | .ok rows => .val (buildFilters rows)

/-- `SupabaseService.get_templates` (supabase_service.py:75-93). -/
def get_templates (s : SupabaseState) (category productType : Chars)
    (backend : Except Chars (List TemplateRow)) : OpRet (List TemplateRow) :=
  if s.clientOk = false then .marker clientUnavailableMsg
  else
    match backend with
    | .error e => .marker e
    | .ok rows => .val rows

/-- `SupabaseService.get_user_assets` (supabase_service.py:119-133). -/
def get_user_assets (s : SupabaseState) (userId : Chars)
    (backend : Except Chars (List AssetRow)) : OpRet (List AssetRow) :=
  if s.clientOk = false then .marker clientUnavailableMsg
  else
    match backend with
    | .error e => .marker e
    | .ok rows => .val rows

/-- `SupabaseService.insert_asset` (supabase_service.py:95-117). Note the
asymmetry taken verbatim from the source: an unavailable client returns
Python `None` (line 101), while a raised insert (oracle `insExc`) is caught
and converted to the error marker (line 117); a successful insert appends
one row and returns it with its store-assigned identifier. -/
def insert_asset (s : SupabaseState) (userId atype source storagePath : Chars)
    (metadata : AssetMeta) (insExc : Option Chars) :
    SupabaseState × OpRet (List AssetRow) :=
  if s.clientOk = false then (s, .pynone)
  else
    match insExc with
    | some e => (s, .marker e)
    | none =>
      let row : AssetRow :=
        { assetId := s.nextAssetId, userId := userId, atype := atype,
          source := source, storagePath := storagePath, metadata := metadata }
      ({ s with assets := s.assets ++ [row], nextAssetId := s.nextAssetId + 1 },
        .val [row])

/-- Modelled from the spec: `SupabaseService.insert_product` is called at
routes.py:255 and helper_service.py:59 but no definition of it appears under
src/ (src's supabase_service.py is a revision without it). Spec 4.2:
`insert_product(name, category, type, hash?) -> id`: single insert, returns
generated identifier; failure policy as the rest of the gateway (client
check, exceptions converted to the error marker). -/
def insert_product (s : SupabaseState) (pname category productType : Chars)
    (contentHash : Option Chars) (insExc : Option Chars) :
    SupabaseState × OpRet Nat :=
  if s.clientOk = false then (s, .marker clientUnavailableMsg)
  else
    match insExc with
    | some e => (s, .marker e)
    | none =>
      let row : ProductRow :=
        { productId := s.nextProductId, pname := pname, category := category,
          productType := productType, contentHash := contentHash }
      ({ s with products := s.products ++ [row], nextProductId := s.nextProductId + 1 },
        .val s.nextProductId)

/-! ## Media Generation Facade (`app/services/vertex_service.py`) -/

/-- One content part of a model response; only its optional inline media
payload matters to the extraction loop. -/
structure GenPart where
  inlineData : Option Bytes
deriving DecidableEq

/-- The content of a response candidate. -/
structure GenContent where
  parts : List GenPart
deriving DecidableEq

/-- One response candidate. -/
structure GenCandidate where
  content : GenContent
deriving DecidableEq

/-- A generation response: a (possibly empty) candidate list. A Python
`None` candidates attribute is falsy exactly like an empty list, so both are
embedded as `[]`. -/
structure GenResponse where
  candidates : List GenCandidate
deriving DecidableEq

/-- The extraction step shared by the image generators
(vertex_service.py:105-112, 151-157, 189-195): when the candidate list and
the first candidate's parts are truthy, return the first part carrying
inline data; otherwise nothing. -/
def extractInline (r : GenResponse) : Option Bytes :=
  match r.candidates with
  | [] => none
  | c :: _ => c.content.parts.findSome? (fun p => p.inlineData)

/-- The dictionary each top-level generator returns:
`\x7bstatus: completed, base_url, signed_url\x7d` or
`\x7bstatus: failed, error\x7d`. -/
inductive GenResult where
  | completed (baseUrl : Chars) (signedUrl : SignedUrl)
  | failed (err : Chars)
deriving DecidableEq

/-- Outcomes of the external effects inside one `_save_asset` call: the
random hex of the generated key, whether the GCS write succeeds, the PIL
decode result (`none` when decoding raises, tolerated), and whether the
Supabase insert raises. -/
structure SaveEnv where
  hexv : Chars
  writeOk : Bool
  imgDims : Option (Nat × Nat)
  insExc : Option Chars
deriving DecidableEq

/-- `VertexGenerator._save_asset` (vertex_service.py:32-75): upload (a raise
propagates), build the metadata map (prompt and product id only when truthy,
dimensions only for images and only when decoding succeeds), insert the
asset row, and return the public URL plus the store-assigned identifier of
the inserted row (`none` when the insert returned a marker or `None`). -/
def saveAsset (g : GCSState) (sb : SupabaseState) (env : SaveEnv) (data : Bytes)
    (userId atype source pre ext mime : Chars) (promptText : Option Chars)
    (productId : Option Nat) :
    Except Chars (GCSState × SupabaseState × Chars × Option Nat) :=
  match upload_bytes g data pre ext mime env.hexv env.writeOk with
  | .error e => .error e
  | .ok (g', url) =>
    let md : AssetMeta :=
      { sizeBytes := data.length, format := ext, mime := mime,
        promptText := match promptText with
          | some p => if p = [] then none else some p
          | none => none,
        productId := match productId with
          | some n => if n = 0 then none else some n
          | none => none,
        width := if atype = "image".data then env.imgDims.map (fun d => d.1) else none,
        height := if atype = "image".data then env.imgDims.map (fun d => d.2) else none }
    let res := insert_asset sb userId atype source url md env.insExc
    let assetId : Option Nat :=
      match res.2 with
      | .val (r :: _) => some r.assetId
      | _ => none
    .ok (g', res.1, url, assetId)

/-- `VertexGenerator._process_media` (vertex_service.py:77-89): persist the
generated bytes as a `generated` asset, recover the blob name from the
public URL (`urlparse` path, `lstrip`, `split("/", 1)[1]` — an `IndexError`
is caught by the method's own handler), mint a signed URL for it, and
report completion; any raise becomes a failed result. -/
def processMedia (g : GCSState) (sb : SupabaseState) (env : SaveEnv) (data : Bytes)
    (pre ext mime userId atype promptText : Chars) (productId : Option Nat) :
    GenResult × GCSState × SupabaseState :=
  match saveAsset g sb env data userId atype "generated".data pre ext mime
      (some promptText) productId with
  | .error e => (.failed e, g, sb)
  | .ok (g', sb', url, _) =>
    match extractBlobName url with
    | none => (.failed "IndexError: list index out of range".data, g', sb')
    | some blobName => (.completed url (generate_signed_url blobName), g', sb')

/-- `VertexGenerator.generate_text_to_image` (vertex_service.py:91-115): the
model call outcome is the `genOutcome` oracle (a response or a raised
exception, which the catch-all turns into a failed result). -/
def generate_text_to_image (clientOk : Bool) (g : GCSState) (sb : SupabaseState)
    (env : SaveEnv) (genOutcome : Except Chars GenResponse)
    (promptText aspect userId : Chars) : GenResult × GCSState × SupabaseState :=
  if clientOk = false then (.failed "Client unavailable".data, g, sb)
  else
    match genOutcome with
    | .error e => (.failed e, g, sb)
    | .ok resp =>
      match extractInline resp with
      | some data =>
        processMedia g sb env data (userId ++ "/t2i".data) "png".data
          "image/png".data userId "image".data promptText none
      | none => (.failed "No image generated".data, g, sb)

/-- The generation-and-persistence stage shared by
`generate_image_to_image` and `generate_image_variations`
(vertex_service.py:139-158 and 177-196): call the model on the resolved
input bytes (`genf` is the model oracle), extract the first inline payload,
persist it under the `i2i` prefix tagged with the current product id. -/
def genStageI2I (g : GCSState) (sb : SupabaseState) (env : SaveEnv)
    (genf : Bytes → Except Chars GenResponse) (imageBytes : Bytes)
    (promptText userId : Chars) (productId : Option Nat) :
    GenResult × GCSState × SupabaseState :=
  match genf imageBytes with
  | .error e => (.failed e, g, sb)
  | .ok resp =>
    match extractInline resp with
    | some data =>
      processMedia g sb env data (userId ++ "/i2i".data) "png".data
        "image/png".data userId "image".data promptText productId
    | none => (.failed "No image generated".data, g, sb)

/-- Python truthiness of the fetched download result: `None` and empty
bytes are both falsy (`if fetched_bytes:` at vertex_service.py:134/172/218). -/
def bytesTruthy : Option Bytes → Bool
  | none => false
  | some bs => !bs.isEmpty

/-- Python truthiness of an optional URL string (`if not image_url:`). -/
def urlTruthy : Option Chars → Bool
  | none => false
  | some u => !u.isEmpty

/-- The input-resolution failure message of the URL branches
(vertex_service.py:137/175/221). -/
def downloadFailMsg : Chars := "Failed to download image from provided URL".data

/-- `VertexGenerator.generate_image_variations` (vertex_service.py:162-198):
always fetches its source from the given URL via the storage gateway, then
runs the shared generation stage. -/
def generate_image_variations (clientOk : Bool) (g : GCSState) (sb : SupabaseState)
    (env : SaveEnv) (genf : Bytes → Except Chars GenResponse)
    (promptText userId imageUrl : Chars) (productId : Option Nat) :
    GenResult × GCSState × SupabaseState :=
  if clientOk = false then (.failed "Client unavailable".data, g, sb)
  else
    let fetched := download_image_as_bytes g imageUrl
    if bytesTruthy fetched = false then (.failed downloadFailMsg, g, sb)
    else genStageI2I g sb env genf (fetched.getD []) promptText userId productId

/-- `VertexGenerator.generate_image_to_image` (vertex_service.py:117-160):
without a URL, persist the supplied bytes as an `uploaded` input asset first
(its store id becomes the fallback product id); with a URL, fetch the bytes
from storage; then the shared generation stage. A `None` file together with
no URL makes the input save raise (embedded as a failed result, matching the
catch-all). `envIn` carries the input save's effects, `env` the generated
asset's. -/
def generate_image_to_image (clientOk : Bool) (g : GCSState) (sb : SupabaseState)
    (envIn env : SaveEnv) (genf : Bytes → Except Chars GenResponse)
    (imageBytes : Option Bytes) (promptText userId : Chars)
    (imageUrl : Option Chars) (productId : Option Nat) :
    GenResult × GCSState × SupabaseState :=
  if clientOk = false then (.failed "Client unavailable".data, g, sb)
  else if urlTruthy imageUrl = false then
    match imageBytes with
    | none => (.failed "TypeError: a bytes-like object is required".data, g, sb)
    | some bs =>
      match saveAsset g sb envIn bs userId "image".data "uploaded".data
          (userId ++ "/inputs".data) "png".data "image/png".data none none with
      | .error e => (.failed e, g, sb)
      | .ok (g', sb', _, assetId) =>
        let currentPid :=
          match productId with
          | some n => if n = 0 then assetId else some n
          | none => assetId
        genStageI2I g' sb' env genf bs promptText userId currentPid
  else
    let fetched := download_image_as_bytes g (imageUrl.getD [])
    if bytesTruthy fetched = false then (.failed downloadFailMsg, g, sb)
    else genStageI2I g sb env genf (fetched.getD []) promptText userId productId

/-- The video generation-and-persistence stage of `generate_image_to_video`
(vertex_service.py:223-240): the long-running operation's outcome is the
`vgenf` oracle (`none` models a terminal result without `generated_videos`);
a produced video is persisted under the `vi` prefix. -/
def videoStage (g : GCSState) (sb : SupabaseState) (env : SaveEnv)
    (vgenf : Bytes → Except Chars (Option Bytes)) (imageBytes : Bytes)
    (promptText userId : Chars) (productId : Option Nat) :
    GenResult × GCSState × SupabaseState :=
  match vgenf imageBytes with
  | .error e => (.failed e, g, sb)
  | .ok none => (.failed "No video generated".data, g, sb)
  | .ok (some vb) =>
    processMedia g sb env vb (userId ++ "/vi".data) "mp4".data
      "video/mp4".data userId "video".data promptText productId

/-- `VertexGenerator.generate_image_to_video` (vertex_service.py:200-242):
input resolution exactly as in `generate_image_to_image`, then the video
stage. -/
def generate_image_to_video (clientOk : Bool) (g : GCSState) (sb : SupabaseState)
    (envIn env : SaveEnv) (vgenf : Bytes → Except Chars (Option Bytes))
    (imageBytes : Option Bytes) (promptText userId : Chars)
    (imageUrl : Option Chars) (productId : Option Nat) :
    GenResult × GCSState × SupabaseState :=
  if clientOk = false then (.failed "Client unavailable".data, g, sb)
  else if urlTruthy imageUrl = false then
    match imageBytes with
    | none => (.failed "TypeError: a bytes-like object is required".data, g, sb)
    | some bs =>
      match saveAsset g sb envIn bs userId "image".data "uploaded".data
          (userId ++ "/inputs".data) "png".data "image/png".data none none with
      | .error e => (.failed e, g, sb)
      | .ok (g', sb', _, assetId) =>
        let currentPid :=
          match productId with
          | some n => if n = 0 then assetId else some n
          | none => assetId
        videoStage g' sb' env vgenf bs promptText userId currentPid
  else
    let fetched := download_image_as_bytes g (imageUrl.getD [])
    if bytesTruthy fetched = false then (.failed downloadFailMsg, g, sb)
    else videoStage g sb env vgenf (fetched.getD []) promptText userId productId

/-! ## Helper service batch upload (`app/services/helper_service.py`) -/

/-- One file of a batch upload request, together with the outcomes of its
external effects (the generated key's hex, the GCS write result). -/
structure UpFile where
  filename : Chars
  contentType : Option Chars
  content : Bytes
  hexv : Chars
  writeOk : Bool
deriving DecidableEq

/-- `ext = file.filename.split(".")[-1] if "." in file.filename else "png"`
(helper_service.py:26). -/
def extOf (fn : Chars) : Chars :=
  if fn.contains '.' then (splitOnDot fn).getLastD [] else "png".data

/-- `mime = file.content_type or "image/png"` (helper_service.py:27):
Python `or` falls through on `None` and on the empty string. -/
def mimeOf (ct : Option Chars) : Chars :=
  match ct with
  | some m => if m = [] then "image/png".data else m
  | none => "image/png".data

/-- The message of the `TypeError` described for `callInsertAssetKw`. -/
def insertAssetKwMsg : Chars :=
  "TypeError: insert_asset got an unexpected keyword argument product_id".data

/-- The call `self.supabase.insert_asset(..., product_id=product_id)` at
helper_service.py:40-47 passes a keyword argument `product_id` that
`SupabaseService.insert_asset` (supabase_service.py:95) does not declare;
in Python this raises `TypeError` at the call, before the method body runs.
Embedded as an always-raising call. -/
def callInsertAssetKw (sb : SupabaseState) :
    Except Chars (SupabaseState × OpRet (List AssetRow)) :=
  .error insertAssetKwMsg

/-- `HelperService.process_uploads` (helper_service.py:12-53): files are
processed one at a time; per file: read, derive extension and mime, upload
to GCS, append the URL, then attempt the asset insert; any exception inside
the file's `try` (a failed upload, or the `TypeError` from the insert call)
is logged and the loop continues with the next file. Returns the final
storage state, the final metadata-store state and the collected URLs. -/
def process_uploads (g : GCSState) (sb : SupabaseState) (userId : Chars)
    (productId : Option Chars) : List UpFile → GCSState × SupabaseState × List Chars
  | [] => (g, sb, [])
  | f :: rest =>
    match upload_bytes g f.content (userId ++ "/inputs".data) (extOf f.filename)
        (mimeOf f.contentType) f.hexv f.writeOk with
    | .error _ => process_uploads g sb userId productId rest
    | .ok (g', url) =>
      match callInsertAssetKw sb with
      | .error _ =>
        let r := process_uploads g' sb userId productId rest
        (r.1, r.2.1, url :: r.2.2)
      | .ok (sb2, _) =>
        let r := process_uploads g' sb2 userId productId rest
        (r.1, r.2.1, url :: r.2.2)

/-! ## Job Queue Gateway (`app/services/pubsub_service.py`) -/

/-- A JSON value of the shapes the queued job payload actually contains
(routes.py:270-276): strings and lists of strings. -/
inductive PyVal where
  | pstr (s : Chars)
  | plist (l : List Chars)
deriving DecidableEq

/-- Hex digit (lowercase), as in Python json escaping. -/
def hexDigit (n : Nat) : Char :=
  if n < 10 then Char.ofNat (48 + n) else Char.ofNat (87 + n)

/-- Four hex digits of a number below 65536. -/
def hex4 (n : Nat) : Chars :=
  [hexDigit (n / 4096 % 16), hexDigit (n / 256 % 16), hexDigit (n / 16 % 16),
    hexDigit (n % 16)]

/-- `json.dumps` escaping of one character with the default
`ensure_ascii=True`: short escapes, `\uXXXX` for other control or non-ASCII
characters, surrogate pairs beyond the BMP. -/
def escChar (c : Char) : Chars :=
  if c = '"' then ['\\', '"']
  else if c = '\\' then ['\\', '\\']
  else if c = Char.ofNat 8 then ['\\', 'b']
  else if c = Char.ofNat 9 then ['\\', 't']
  else if c = Char.ofNat 10 then ['\\', 'n']
  else if c = Char.ofNat 12 then ['\\', 'f']
  else if c = Char.ofNat 13 then ['\\', 'r']
  else if c.toNat < 32 then '\\' :: 'u' :: hex4 c.toNat
  else if c.toNat < 127 then [c]
  else if c.toNat < 65536 then '\\' :: 'u' :: hex4 c.toNat
  else
    '\\' :: 'u' :: hex4 (55296 + (c.toNat - 65536) / 1024) ++
      '\\' :: 'u' :: hex4 (56320 + (c.toNat - 65536) % 1024)

/-- Escape a whole string. -/
def jsonEscape (s : Chars) : Chars :=
  s.foldr (fun c acc => escChar c ++ acc) []

/-- A JSON string literal. -/
def jsonStr (s : Chars) : Chars :=
  '"' :: jsonEscape s ++ ['"']

/-- A JSON array of strings, with `json.dumps`' default `", "` separator. -/
def jsonStrList : List Chars → Chars
  | [] => []
  | [x] => jsonStr x
  | x :: y :: rest => jsonStr x ++ ',' :: ' ' :: jsonStrList (y :: rest)

/-- Serialize one payload value. -/
def jsonDumpsVal : PyVal → Chars
  | .pstr s => jsonStr s
  | .plist l => '[' :: jsonStrList l ++ [']']

/-- The members of a JSON object, with the default `", "` and `": "`
separators. -/
def jsonObjMembers : List (Chars × PyVal) → Chars
  | [] => []
  | [(k, v)] => jsonStr k ++ ':' :: ' ' :: jsonDumpsVal v
  | (k, v) :: p :: rest =>
    (jsonStr k ++ ':' :: ' ' :: jsonDumpsVal v) ++ ',' :: ' ' :: jsonObjMembers (p :: rest)

/-- `json.dumps(data)` for the flat payload dictionaries this codebase
publishes (string and list-of-string values, default separators,
`ensure_ascii=True`). -/
def jsonDumpsPayload (payload : List (Chars × PyVal)) : Chars :=
  Char.ofNat 123 :: jsonObjMembers payload ++ [Char.ofNat 125]

/-- UTF-8 encoding of one character (`str.encode("utf-8")`). -/
def utf8Char (c : Char) : Bytes :=
  let n := c.toNat
  if n < 128 then [n]
  else if n < 2048 then [192 + n / 64, 128 + n % 64]
  else if n < 65536 then [224 + n / 4096, 128 + n / 64 % 64, 128 + n % 64]
  else [240 + n / 262144, 128 + n / 4096 % 64, 128 + n / 64 % 64, 128 + n % 64]

/-- UTF-8 encoding of a string. -/
def utf8Encode (s : Chars) : Bytes :=
  s.foldr (fun c acc => utf8Char c ++ acc) []

/-- State of the Pub/Sub-backed `PubSubService`: whether the publisher
client constructed, and the single preconfigured topic path. -/
structure PubSubState where
  publisherOk : Bool
  topicPath : Chars
deriving DecidableEq

/-- `PubSubService.publish_message` (pubsub_service.py:24-47): `None` when
the publisher never initialized; otherwise serialize the payload to UTF-8
JSON bytes and publish to the configured topic, returning the broker's
message id; an exception while publishing (`broker` oracle) is re-raised to
the caller. The second component lists the messages the broker acknowledged
during the call. -/
def publish_message (st : PubSubState) (payload : List (Chars × PyVal))
    (broker : Except Chars Chars) :
    Except Chars (Option Chars) × List (Chars × Bytes) :=
  if st.publisherOk = false then (.ok none, [])
  else
    let dataBytes := utf8Encode (jsonDumpsPayload payload)
    match broker with
    | .error e => (.error e, [])
    | .ok mid => (.ok (some mid), [(st.topicPath, dataBytes)])

/-! ## Route handler for GET /generate/templates/filters (`app/api/routes.py`) -/

/-- A value of the dictionary the filters handler inspects: the gateway
returns either the category map (list values) or the error marker (a string
value under the key `error`). -/
inductive FVal where
  | fs (s : Chars)
  | fl (l : List Chars)
deriving DecidableEq

/-- The gateway result as the Python dict the handler sees. -/
def toDict : OpRet (List (Chars × List Chars)) → List (Chars × FVal)
  | .marker e => [("error".data, .fs e)]
  | .val m => m.map (fun cl => (cl.1, .fl cl.2))
  | .pynone => []

/-- Dictionary lookup (`"error" in result` / `result["error"]`). -/
def lookupF (k : Chars) : List (Chars × FVal) → Option FVal
  | [] => none
  | (k', v) :: rest => if k' = k then some v else lookupF k rest

/-- The handler's outcome: the body returned with HTTP 200, or an
`HTTPException(500, detail)`. -/
inductive RouteResp where
  | http200 (d : List (Chars × FVal))
  | http500 (detail : FVal)
deriving DecidableEq

/-- The GET `/generate/templates/filters` handler (routes.py:148-158):
fetch the mapping, and if the key `error` is present, raise HTTP 500 with
`result["error"]` as detail; otherwise return the mapping. -/
def filters_route (s : SupabaseState)
    (backend : Except Chars (List (Option Chars × Option Chars))) : RouteResp :=
  let d := toDict (get_template_filters s backend)
  match lookupF "error".data d with
  | some v => .http500 v
  | none => .http200 d

/-! ## Concrete states used in counterexamples and witnesses -/

/-- A freshly constructed storage gateway with an available client. -/
def gOk : GCSState :=
  { clientOk := true, bucketName := "bkt".data, objects := [] }

/-- A freshly constructed metadata store with an available client. -/
def sbOk : SupabaseState :=
  { clientOk := true, assets := [], products := [], nextAssetId := 1, nextProductId := 1 }

/-- An effect environment in which every external call succeeds. -/
def envOk : SaveEnv :=
  { hexv := "00000000".data, writeOk := true, imgDims := none, insExc := none }

/-- The storage state after uploading the single byte `0` into `gOk`. -/
def c1g1 : GCSState :=
  { clientOk := true, bucketName := "bkt".data,
    objects := [("p_00000000.png".data, [0])] }

/-- The storage state after uploading an empty payload into `gOk`. -/
def c2g1 : GCSState :=
  { clientOk := true, bucketName := "bkt".data,
    objects := [("p_00000000.png".data, [])] }

/-- A storage state holding one non-empty object. -/
def c2g2 : GCSState :=
  { clientOk := true, bucketName := "bkt".data,
    objects := [("k_11111111.png".data, [7])] }

/-- The URL of the object stored in `c1g1` and `c2g1`. -/
def c1url : Chars := "https://storage.googleapis.com/bkt/p_00000000.png".data

/-- The URL of the object stored in `c2g2`. -/
def c2url : Chars := "https://storage.googleapis.com/bkt/k_11111111.png".data

/-- A model oracle that always raises (never reached in the places it is
passed). -/
def genfDummy : Bytes → Except Chars GenResponse := fun _ => .error []

/-- A video-model oracle that always raises (never reached where passed). -/
def vgenfDummy : Bytes → Except Chars (Option Bytes) := fun _ => .error []

/-- First file of the batch-upload scenario: a valid png upload. -/
def c3f1 : UpFile :=
  { filename := "a.png".data, contentType := some "image/png".data,
    content := [1, 2], hexv := "11111111".data, writeOk := true }

/-- Second file of the batch-upload scenario: its GCS write raises. -/
def c3f2 : UpFile :=
  { filename := "b.jpg".data, contentType := none, content := [3],
    hexv := "22222222".data, writeOk := false }

/-- Third file of the batch-upload scenario: a valid upload again. -/
def c3f3 : UpFile :=
  { filename := "c".data, contentType := some [], content := [4, 5],
    hexv := "33333333".data, writeOk := true }

/-- The batch-upload scenario: three files through `process_uploads`. -/
def c3run : GCSState × SupabaseState × List Chars :=
  process_uploads gOk sbOk "u".data none [c3f1, c3f2, c3f3]

/-- A metadata map for witnesses. -/
def c5meta : AssetMeta :=
  { sizeBytes := 0, format := "png".data, mime := "image/png".data,
    promptText := none, productId := none, width := none, height := none }

/-- A metadata store whose client failed to construct. -/
def sbDown : SupabaseState :=
  { clientOk := false, assets := [], products := [], nextAssetId := 1,
    nextProductId := 1 }

/-- A model oracle answering every request with a response that has no
candidates. -/
def genfNoMedia : Bytes → Except Chars GenResponse :=
  fun _ => .ok { candidates := [] }

/-- A job queue gateway whose publisher constructed. -/
def psOk : PubSubState :=
  { publisherOk := true, topicPath := "projects/p/topics/jobs".data }

/-- A job queue gateway whose publisher failed to construct. -/
def psDown : PubSubState :=
  { publisherOk := false, topicPath := "projects/p/topics/jobs".data }

/-! ## Helper lemmas -/

theorem replaceAllGo_of_no_occur (pat rep : Chars) :
    ∀ (fuel : Nat) (s : Chars), s.length ≤ fuel → hasOccur pat s = false →
      replaceAllGo pat rep fuel s = s := by
  intro fuel
  induction fuel with
  | zero =>
    intro s hl _
    cases s with
    | nil => rfl
    | cons c rest => simp at hl
  | succ n ih =>
    intro s hl hocc
    cases s with
    | nil => rfl
    | cons c rest =>
      simp only [hasOccur, Bool.or_eq_false_iff] at hocc
      simp only [replaceAllGo, hocc.1, if_false, Bool.false_eq_true]
      have : rest.length ≤ n := by simp at hl; omega
      rw [ih rest this hocc.2]

theorem isPrefixOf_append_self (a b : Chars) : a.isPrefixOf (a ++ b) = true := by
  rw [List.isPrefixOf_iff_prefix]
  exact List.prefix_append _ _

theorem replaceAll_strip (pat f : Chars) (hp : pat ≠ [])
    (hocc : hasOccur pat f = false) : replaceAll (pat ++ f) pat [] = f := by
  obtain ⟨p0, ps, rfl⟩ : ∃ p0 ps, pat = p0 :: ps := by
    cases pat with
    | nil => exact absurd rfl hp
    | cons a b => exact ⟨a, b, rfl⟩
  unfold replaceAll
  rw [if_neg hp]
  show replaceAllGo (p0 :: ps) [] ((p0 :: ps) ++ f).length ((p0 :: ps) ++ f) = f
  rw [List.cons_append, List.length_cons]
  simp only [replaceAllGo]
  rw [if_pos (by rw [← List.cons_append]; exact isPrefixOf_append_self _ _)]
  have hdrop : (p0 :: (ps ++ f)).drop (p0 :: ps).length = f := by
    rw [← List.cons_append]
    exact List.drop_left _ _
  rw [hdrop]
  simp only [List.nil_append]
  refine replaceAllGo_of_no_occur _ _ _ _ ?_ hocc
  simp [List.length_append]

theorem slookup_head (k : Chars) (v : Bytes) (rest : List (Chars × Bytes)) :
    slookup k ((k, v) :: rest) = some v := by
  simp [slookup]

theorem bucketUrlBase_ne_nil (b : Chars) : bucketUrlBase b ≠ [] := by
  unfold bucketUrlBase
  intro h
  have := congrArg List.length h
  simp [List.length_append] at this

theorem b64v_b64c : ∀ n, n < 64 → b64v (b64c n) = some n := by decide

theorem b64c_ne_pad : ∀ n, n < 64 → b64c n ≠ '=' := by decide

theorem base64_roundtrip :
    ∀ (l : Bytes), (∀ b ∈ l, b < 256) → base64Decode (base64Encode l) = some l := by
  suffices h : ∀ (n : Nat) (l : Bytes), l.length ≤ n → (∀ b ∈ l, b < 256) →
      base64Decode (base64Encode l) = some l by
    exact fun l hb => h l.length l le_rfl hb
  intro n
  induction n with
  | zero =>
    intro l hl _
    have : l = [] := List.eq_nil_of_length_eq_zero (Nat.le_zero.mp hl)
    subst this
    rfl
  | succ n ih =>
    intro l hl hb
    match l with
    | [] => rfl
    | [a] =>
      have ha : a < 256 := hb a (by simp)
      have h1 := b64v_b64c (a / 4) (by omega)
      have h2 := b64v_b64c (a % 4 * 16) (by omega)
      simp [base64Encode, base64Decode, h1, h2]
      omega
    | [a, b] =>
      have ha : a < 256 := hb a (by simp)
      have hb2 : b < 256 := hb b (by simp)
      have h1 := b64v_b64c (a / 4) (by omega)
      have h2 := b64v_b64c (a % 4 * 16 + b / 16) (by omega)
      have h3 := b64v_b64c (b % 16 * 4) (by omega)
      have hne := b64c_ne_pad (b % 16 * 4) (by omega)
      simp [base64Encode, base64Decode, h1, h2, h3, hne]
      omega
    | a :: b :: c :: rest =>
      have ha : a < 256 := hb a (by simp)
      have hb2 : b < 256 := hb b (by simp)
      have hc : c < 256 := hb c (by simp)
      have hrest : ∀ x ∈ rest, x < 256 := fun x hx => hb x (by simp [hx])
      have hlen : rest.length ≤ n := by simp at hl; omega
      have ihr := ih rest hlen hrest
      have h1 := b64v_b64c (a / 4) (by omega)
      have h2 := b64v_b64c (a % 4 * 16 + b / 16) (by omega)
      have h3 := b64v_b64c (b % 16 * 4 + c / 64) (by omega)
      have h4 := b64v_b64c (c % 64) (by omega)
      have hne3 := b64c_ne_pad (b % 16 * 4 + c / 64) (by omega)
      have hne4 := b64c_ne_pad (c % 64) (by omega)
      simp [base64Encode, base64Decode, h1, h2, h3, h4, hne3, hne4, ihr]
      omega

/-! ## Claim C1 -/

/-- C1 counterexample. The claim states that downloading the URL returned
by `upload` yields exactly the original bytes. On the source,
`download_image_as_base64` validates and strips the bucket prefix and
fetches the original blob, but returns its base64 TEXT: uploading the
single byte `0` and downloading the returned URL yields the string
`"AA=="`, whose character codes are not the original byte sequence. -/
theorem c1_download_returns_base64_not_bytes :
    upload_bytes gOk [0] "p".data "png".data "image/png".data "00000000".data true
      = .ok (c1g1, c1url)
    ∧ download_image_as_base64 c1g1 c1url = some "AA==".data
    ∧ "AA==".data.map Char.toNat ≠ [0] :=
  ⟨rfl, rfl, by decide⟩

/-- C1 (amended): for every byte payload, uploading it and then calling the
gateway's download operation on the returned URL — which validates the
URL's bucket prefix and strips it (via Python `str.replace`) to recover the
key — succeeds and yields the base64 text of exactly the original bytes, so
that base64-decoding the result recovers the original payload. The
occurrence hypothesis excludes pathological prefixes that embed the bucket
URL itself, where `str.replace` would also strip inner occurrences. -/
theorem c1_upload_download_round_trip (g : GCSState) (data : Bytes)
    (pre ext mime hexv : Chars)
    (hc : g.clientOk = true)
    (hocc : hasOccur (bucketUrlBase g.bucketName) (gcsFilename pre hexv ext) = false)
    (hb : ∀ b ∈ data, b < 256) :
    ∃ g', upload_bytes g data pre ext mime hexv true
        = .ok (g', bucketUrlBase g.bucketName ++ gcsFilename pre hexv ext)
      ∧ download_image_as_base64 g'
          (bucketUrlBase g.bucketName ++ gcsFilename pre hexv ext)
        = some (base64Encode data)
      ∧ base64Decode (base64Encode data) = some data := by
  refine ⟨{ g with objects := (gcsFilename pre hexv ext, data) :: g.objects },
    ?_, ?_, base64_roundtrip data hb⟩
  · simp [upload_bytes, hc]
  · unfold download_image_as_base64
    simp only [hc, Bool.true_eq_false, if_false]
    rw [if_neg (by simp [isPrefixOf_append_self])]
    rw [replaceAll_strip _ _ (bucketUrlBase_ne_nil _) hocc]
    rw [slookup_head]

/-- C1 witness: the amended round trip at a concrete two-byte payload. -/
theorem c1_witness :
    ∃ g', upload_bytes gOk [0, 255] "p".data "png".data "image/png".data
          "00000000".data true
        = .ok (g', bucketUrlBase gOk.bucketName ++
            gcsFilename "p".data "00000000".data "png".data)
      ∧ download_image_as_base64 g'
          (bucketUrlBase gOk.bucketName ++
            gcsFilename "p".data "00000000".data "png".data)
        = some (base64Encode [0, 255])
      ∧ base64Decode (base64Encode [0, 255]) = some [0, 255] :=
  c1_upload_download_round_trip gOk [0, 255] "p".data "png".data "image/png".data
    "00000000".data rfl (by decide) (by decide)

/-! ## Claim C2 -/

theorem isPrefixOf_nil_of_ne_nil (l : Chars) (h : l ≠ []) :
    l.isPrefixOf ([] : Chars) = false := by
  cases l with
  | nil => exact absurd rfl h
  | cons a b => rfl

theorem download_bytes_url_ne_nil (g : GCSState) (url : Chars) (bs : Bytes)
    (h : download_image_as_bytes g url = some bs) : url ≠ [] := by
  intro hnil
  subst hnil
  unfold download_image_as_bytes at h
  by_cases hc : g.clientOk = false
  · simp [hc] at h
  · rw [if_neg hc] at h
    rw [if_pos (isPrefixOf_nil_of_ne_nil _ (bucketUrlBase_ne_nil _))] at h
    exact Option.noConfusion h

/-- C2 counterexample. The claim asserts the facade never fails input
resolution when the storage download succeeds. Upload an EMPTY payload;
its URL downloads successfully (`some []`), yet all URL-driven generators
bail out with the download-failure message, because the code tests the
fetched value for Python truthiness and empty bytes are falsy. -/
theorem c2_counterexample :
    upload_bytes gOk [] "p".data "png".data "image/png".data "00000000".data true
      = .ok (c2g1, c1url)
    ∧ download_image_as_bytes c2g1 c1url = some []
    ∧ generate_image_variations true c2g1 sbOk envOk genfDummy "pr".data "u".data
        c1url none
      = (.failed downloadFailMsg, c2g1, sbOk) :=
  ⟨rfl, rfl, rfl⟩

/-- C2 (amended): for every image-to-image, image-variations or
image-to-video request supplying a direct storage URL, whenever the
(spec-modelled) storage download succeeds with a NON-EMPTY payload, the
facade resolves its input to exactly the downloaded bytes and proceeds to
the generation stage; input resolution does not fail. (An empty downloaded
payload is treated as a failed download by the truthiness test.) -/
theorem c2_url_input_resolution (g : GCSState) (sb : SupabaseState)
    (envIn env : SaveEnv) (genf : Bytes → Except Chars GenResponse)
    (vgenf : Bytes → Except Chars (Option Bytes))
    (promptText userId url : Chars) (pid : Option Nat) (bs : Bytes)
    (hdl : download_image_as_bytes g url = some bs) (hne : bs ≠ []) :
    generate_image_variations true g sb env genf promptText userId url pid
      = genStageI2I g sb env genf bs promptText userId pid
    ∧ generate_image_to_image true g sb envIn env genf none promptText userId
        (some url) pid
      = genStageI2I g sb env genf bs promptText userId pid
    ∧ generate_image_to_video true g sb envIn env vgenf none promptText userId
        (some url) pid
      = videoStage g sb env vgenf bs promptText userId pid := by
  have hie : bs.isEmpty = false := by
    cases bs with
    | nil => exact absurd rfl hne
    | cons a l => rfl
  have hue : url.isEmpty = false := by
    cases url with
    | nil => exact absurd rfl (download_bytes_url_ne_nil g [] bs hdl)
    | cons a l => rfl
  refine ⟨?_, ?_, ?_⟩
  · simp [generate_image_variations, hdl, bytesTruthy, hie]
  · simp [generate_image_to_image, urlTruthy, hue, hdl, bytesTruthy, hie]
  · simp [generate_image_to_video, urlTruthy, hue, hdl, bytesTruthy, hie]

/-- C2 witness: a stored one-byte object resolves and reaches the
generation stage in all three URL-driven modes. -/
theorem c2_witness :
    download_image_as_bytes c2g2 c2url = some [7]
    ∧ (generate_image_variations true c2g2 sbOk envOk genfDummy "pr".data "u".data
          c2url none
        = genStageI2I c2g2 sbOk envOk genfDummy [7] "pr".data "u".data none
      ∧ generate_image_to_image true c2g2 sbOk envOk envOk genfDummy none "pr".data
          "u".data (some c2url) none
        = genStageI2I c2g2 sbOk envOk genfDummy [7] "pr".data "u".data none
      ∧ generate_image_to_video true c2g2 sbOk envOk envOk vgenfDummy none "pr".data
          "u".data (some c2url) none
        = videoStage c2g2 sbOk envOk vgenfDummy [7] "pr".data "u".data none) :=
  ⟨rfl, c2_url_input_resolution c2g2 sbOk envOk envOk genfDummy vgenfDummy
    "pr".data "u".data c2url none [7] rfl (by decide)⟩

/-! ## Claim C3 -/

/-- C3: the batch upload loop processes files one at a time and swallows a
failure of one file (here: the GCS write of the second file raises),
leaving the remaining files unaffected — but, contrary to the claim and the
spec, a successful bucket upload is NEVER followed by a recorded asset row:
the `insert_asset(..., product_id=...)` call raises `TypeError` (the method
declared in src takes no such keyword), the per-file handler swallows it,
and the metadata store stays untouched while the file's URL is still
reported. The first conjunct proves this for every input; the rest evaluate
the three-file batch: both good files are uploaded and their URLs returned,
yet the store is unchanged. -/
theorem c3_upload_loop_never_records_assets :
    (∀ (g : GCSState) (sb : SupabaseState) (userId : Chars) (pid : Option Chars)
      (files : List UpFile), (process_uploads g sb userId pid files).2.1 = sb)
    ∧ c3run.2.1 = sbOk
    ∧ c3run.2.1.assets = []
    ∧ c3run.2.2 = ["https://storage.googleapis.com/bkt/u/inputs_11111111.png".data,
        "https://storage.googleapis.com/bkt/u/inputs_33333333.png".data]
    ∧ c3run.1.objects.length = 2 := by
  refine ⟨?_, rfl, rfl, rfl, rfl⟩
  intro g sb userId pid files
  induction files generalizing g with
  | nil => rfl
  | cons f rest ih =>
    simp only [process_uploads, callInsertAssetKw]
    cases hup : upload_bytes g f.content (userId ++ "/inputs".data) (extOf f.filename)
        (mimeOf f.contentType) f.hexv f.writeOk with
    | error e => exact ih g
    | ok p => exact ih p.1

/-! ## Claim C4 -/

/-- C4: the metadata store gateway's `insert_product` — modelled from the
spec because only its callers appear under src/ — performs, for every
(name, category, type, optional hash) input with an available client and a
non-raising insert, exactly one insert (the row list grows by exactly the
new row) and returns the store-generated identifier to its caller; the
returned identifier is fresh whenever existing identifiers are below the
store's counter. -/
theorem c4_insert_product_single_insert_returns_id (s : SupabaseState)
    (pname category ptype : Chars) (chash : Option Chars)
    (hc : s.clientOk = true) :
    (insert_product s pname category ptype chash none).2 = .val s.nextProductId
    ∧ (insert_product s pname category ptype chash none).1.products
      = s.products ++
        [{ productId := s.nextProductId, pname := pname, category := category,
           productType := ptype, contentHash := chash }]
    ∧ (insert_product s pname category ptype chash none).1.products.length
      = s.products.length + 1
    ∧ ((∀ r ∈ s.products, r.productId < s.nextProductId) →
        ∀ r ∈ s.products, r.productId ≠ s.nextProductId) := by
  refine ⟨?_, ?_, ?_, fun h r hr => Nat.ne_of_lt (h r hr)⟩ <;>
    simp [insert_product, hc]

/-- C4 witness: one concrete insert into the fresh store. -/
theorem c4_witness :
    (insert_product sbOk "n".data "c".data "t".data none none).2 = .val 1
    ∧ (insert_product sbOk "n".data "c".data "t".data none none).1.products
      = [{ productId := 1, pname := "n".data, category := "c".data,
           productType := "t".data, contentHash := none }]
    ∧ (insert_product sbOk "n".data "c".data "t".data none none).1.products.length
      = 1 := by
  have h := c4_insert_product_single_insert_returns_id sbOk "n".data "c".data
    "t".data none rfl
  exact ⟨h.1, h.2.1, h.2.2.1⟩

/-! ## Claim C5 -/

/-- C5 counterexample. The claim asserts every gateway operation — in
particular `insert_asset` with an unavailable client — returns its success
value or the in-band error-marker dictionary. But
`insert_asset` (supabase_service.py:99-101) returns Python `None` when the
client is unavailable: not a marker. -/
theorem c5_counterexample :
    insert_asset sbDown "u".data "image".data "uploaded".data "p".data c5meta none
      = (sbDown, .pynone)
    ∧ (insert_asset sbDown "u".data "image".data "uploaded".data "p".data c5meta
        none).2.isMarker = false :=
  ⟨rfl, rfl⟩

/-- C5 (amended): every metadata store gateway operation returns in-band
(never raising past the gateway): a raised insert or read is converted to
the error marker, an unavailable client yields the marker for all
operations EXCEPT `insert_asset`, which instead returns Python `None`; on
success each operation returns its success value. -/
theorem c5_gateway_error_channels (s : SupabaseState)
    (tn cat pt iu pr uid aty src path : Chars) (md : AssetMeta) (e : Chars)
    (trows : List TemplateRow) (arows : List AssetRow)
    (frows : List (Option Chars × Option Chars)) :
    (s.clientOk = false →
      upsert_template s tn cat pt iu pr (.error e) = .marker clientUnavailableMsg
      ∧ get_template_filters s (.error e) = .marker clientUnavailableMsg
      ∧ get_templates s cat pt (.error e) = .marker clientUnavailableMsg
      ∧ get_user_assets s uid (.error e) = .marker clientUnavailableMsg
      ∧ (insert_asset s uid aty src path md (some e)).2 = .pynone
      ∧ (insert_asset s uid aty src path md (some e)).2.isMarker = false)
    ∧ (s.clientOk = true →
      upsert_template s tn cat pt iu pr (.error e) = .marker e
      ∧ get_template_filters s (.error e) = .marker e
      ∧ get_templates s cat pt (.error e) = .marker e
      ∧ get_user_assets s uid (.error e) = .marker e
      ∧ (insert_asset s uid aty src path md (some e)).2 = .marker e
      ∧ upsert_template s tn cat pt iu pr (.ok trows) = .val trows
      ∧ get_templates s cat pt (.ok trows) = .val trows
      ∧ get_user_assets s uid (.ok arows) = .val arows
      ∧ get_template_filters s (.ok frows) = .val (buildFilters frows)) := by
  constructor <;> intro h <;>
    simp [upsert_template, get_template_filters, get_templates, get_user_assets,
      insert_asset, OpRet.isMarker, h]

/-- C5 witness: both availability regimes at concrete inputs. -/
theorem c5_witness :
    ((insert_asset sbDown "u".data "i".data "s".data "p".data c5meta
        (some "boom".data)).2 = .pynone
      ∧ get_templates sbDown "c".data "t".data (.error "boom".data)
        = .marker clientUnavailableMsg)
    ∧ ((insert_asset sbOk "u".data "i".data "s".data "p".data c5meta
        (some "boom".data)).2 = .marker "boom".data
      ∧ get_templates sbOk "c".data "t".data (.error "boom".data)
        = .marker "boom".data) := by
  have hdown := c5_gateway_error_channels sbDown "tn".data "c".data "t".data
    "iu".data "pr".data "u".data "i".data "s".data "p".data c5meta "boom".data
    [] [] []
  have hup := c5_gateway_error_channels sbOk "tn".data "c".data "t".data
    "iu".data "pr".data "u".data "i".data "s".data "p".data c5meta "boom".data
    [] [] []
  exact ⟨⟨(hdown.1 rfl).2.2.2.2.1, (hdown.1 rfl).2.2.1⟩,
    ⟨(hup.2 rfl).2.2.2.2.1, (hup.2 rfl).2.2.1⟩⟩

/-! ## Claim C6 -/

theorem findSome_inline_none (parts : List GenPart)
    (h : ∀ p ∈ parts, p.inlineData = none) :
    parts.findSome? (fun p => p.inlineData) = none := by
  induction parts with
  | nil => rfl
  | cons a l ih =>
    have ha := h a (by simp)
    rw [List.findSome?_cons, ha]
    exact ih (fun p hp => h p (by simp [hp]))

theorem extractInline_eq_none (resp : GenResponse)
    (hresp : resp.candidates = []
      ∨ ∃ c rest, resp.candidates = c :: rest
        ∧ (c.content.parts = [] ∨ ∀ p ∈ c.content.parts, p.inlineData = none)) :
    extractInline resp = none := by
  unfold extractInline
  rcases hresp with h | ⟨c, rest, hc, hparts | hnone⟩
  · rw [h]
  · rw [hc]
    show List.findSome? (fun p => p.inlineData) c.content.parts = none
    rw [hparts]
    rfl
  · rw [hc]
    exact findSome_inline_none _ hnone

/-- C6: for every generation response with zero candidates, or a first
candidate with zero content parts, or parts none of which carries an inline
media payload, the facade returns a failed result with the non-empty error
string "No image generated" — uniformly across all three sub-cases, in both
the text-to-image entry and the shared image-to-image/variations generation
stage — and the storage and metadata states are returned unchanged (no
asset is persisted for the response). -/
theorem c6_no_media_uniform_failure (g : GCSState) (sb : SupabaseState)
    (env : SaveEnv) (resp : GenResponse) (promptText aspect userId : Chars)
    (genf : Bytes → Except Chars GenResponse) (ib : Bytes) (pid : Option Nat)
    (hresp : resp.candidates = []
      ∨ ∃ c rest, resp.candidates = c :: rest
        ∧ (c.content.parts = [] ∨ ∀ p ∈ c.content.parts, p.inlineData = none))
    (hgen : genf ib = .ok resp) :
    generate_text_to_image true g sb env (.ok resp) promptText aspect userId
      = (.failed "No image generated".data, g, sb)
    ∧ genStageI2I g sb env genf ib promptText userId pid
      = (.failed "No image generated".data, g, sb)
    ∧ "No image generated".data ≠ [] := by
  have hext := extractInline_eq_none resp hresp
  refine ⟨?_, ?_, by decide⟩
  · simp [generate_text_to_image, hext]
  · simp [genStageI2I, hgen, hext]

/-- C6 witness: the zero-candidate sub-case at concrete states. -/
theorem c6_witness :
    generate_text_to_image true gOk sbOk envOk (.ok { candidates := [] })
        "pr".data "1:1".data "u".data
      = (.failed "No image generated".data, gOk, sbOk)
    ∧ genStageI2I gOk sbOk envOk genfNoMedia [] "pr".data "u".data none
      = (.failed "No image generated".data, gOk, sbOk)
    ∧ "No image generated".data ≠ [] :=
  c6_no_media_uniform_failure gOk sbOk envOk { candidates := [] } "pr".data
    "1:1".data "u".data genfNoMedia [] none (Or.inl rfl) rfl

/-! ## Claim C8 -/

/-- C8: for every payload, the job queue gateway's publish operation
returns Python `None` exactly when the underlying client failed to
initialize at construction time; otherwise it serializes the payload to
UTF-8 JSON bytes, publishes exactly one message to the single configured
topic and returns the broker-assigned message id on acknowledgement, while
a publish-time exception propagates to the caller (an `Except.error`
result) instead of being converted to a return value. -/
theorem c8_publish_contract (st : PubSubState) (payload : List (Chars × PyVal))
    (broker : Except Chars Chars) :
    ((publish_message st payload broker).1 = .ok none ↔ st.publisherOk = false)
    ∧ (st.publisherOk = true → ∀ e, broker = .error e →
        publish_message st payload broker = (.error e, []))
    ∧ (st.publisherOk = true → ∀ mid, broker = .ok mid →
        publish_message st payload broker
          = (.ok (some mid), [(st.topicPath, utf8Encode (jsonDumpsPayload payload))])) := by
  refine ⟨?_, ?_, ?_⟩
  · cases hp : st.publisherOk with
    | false => simp [publish_message, hp]
    | true =>
      cases broker with
      | error e => simp [publish_message, hp]
      | ok mid => simp [publish_message, hp]
  · intro hp e hb
    subst hb
    simp [publish_message, hp]
  · intro hp mid hb
    subst hb
    simp [publish_message, hp]

/-- C8 witness: degraded mode, successful publish, and propagated
publish-time exception at a concrete payload. -/
theorem c8_witness :
    ((publish_message psDown [("user".data, .pstr "u1".data)] (.ok "77".data)).1
      = .ok none)
    ∧ publish_message psOk [("user".data, .pstr "u1".data)] (.error "boom".data)
      = (.error "boom".data, [])
    ∧ publish_message psOk [("user".data, .pstr "u1".data)] (.ok "77".data)
      = (.ok (some "77".data),
          [(psOk.topicPath,
            utf8Encode (jsonDumpsPayload [("user".data, .pstr "u1".data)]))]) := by
  have hdown := c8_publish_contract psDown [("user".data, .pstr "u1".data)]
    (.ok "77".data)
  have herr := c8_publish_contract psOk [("user".data, .pstr "u1".data)]
    (.error "boom".data)
  have hok := c8_publish_contract psOk [("user".data, .pstr "u1".data)]
    (.ok "77".data)
  exact ⟨hdown.1.mpr rfl, herr.2.1 rfl "boom".data rfl, hok.2.2 rfl "77".data rfl⟩

/-! ## Claim C7 -/

theorem lexLe_total : ∀ a b : Chars, lexLe a b = true ∨ lexLe b a = true := by
  intro a
  induction a with
  | nil => intro b; exact Or.inl rfl
  | cons x xs ih =>
    intro b
    cases b with
    | nil => exact Or.inr rfl
    | cons y ys =>
      rcases lt_trichotomy x y with h | h | h
      · exact Or.inl (by simp [lexLe, h])
      · subst h
        rcases ih ys with h2 | h2
        · exact Or.inl (by simp [lexLe, h2])
        · exact Or.inr (by simp [lexLe, h2])
      · exact Or.inr (by simp [lexLe, h])

theorem lexLe_trans : ∀ a b c : Chars,
    lexLe a b = true → lexLe b c = true → lexLe a c = true := by
  intro a
  induction a with
  | nil => intro b c _ _; rfl
  | cons x xs ih =>
    intro b c hab hbc
    cases b with
    | nil => exact absurd hab (by simp [lexLe])
    | cons y ys =>
      cases c with
      | nil => exact absurd hbc (by simp [lexLe])
      | cons z zs =>
        by_cases hxy : x < y
        · by_cases hyz : y < z
          · simp [lexLe, lt_trans hxy hyz]
          · by_cases hyz2 : y = z
            · subst hyz2; simp [lexLe, hxy]
            · simp [lexLe, hyz, hyz2] at hbc
        · by_cases hxy2 : x = y
          · subst hxy2
            simp only [lexLe, if_neg hxy, if_pos rfl] at hab
            by_cases hxz : x < z
            · simp [lexLe, hxz]
            · by_cases hxz2 : x = z
              · subst hxz2
                simp only [lexLe, if_neg hxz, if_pos rfl] at hbc ⊢
                exact ih ys zs hab hbc
              · simp [lexLe, hxz, hxz2] at hbc
          · simp [lexLe, hxy, hxy2] at hab

theorem addPair_mem_iff (c p : Chars) :
    ∀ (m : List (Chars × List Chars)) (c' p' : Chars),
      (∃ l, (c', l) ∈ addPair m c p ∧ p' ∈ l)
        ↔ (∃ l, (c', l) ∈ m ∧ p' ∈ l) ∨ (c' = c ∧ p' = p) := by
  intro m
  induction m with
  | nil =>
    intro c' p'
    constructor
    · rintro ⟨l, hl, hpl⟩
      have heq := List.mem_singleton.mp hl
      injection heq with h1 h2
      subst h1
      subst h2
      exact Or.inr ⟨rfl, List.mem_singleton.mp hpl⟩
    · rintro (⟨l, hl, _⟩ | ⟨rfl, rfl⟩)
      · exact absurd hl (List.not_mem_nil _)
      · exact ⟨[p'], List.mem_singleton.mpr rfl, List.mem_singleton.mpr rfl⟩
  | cons hd rest ih =>
    intro c' p'
    obtain ⟨c0, l0⟩ := hd
    by_cases hc0 : c0 = c
    · subst hc0
      by_cases hp0 : p ∈ l0
      · simp only [addPair, if_pos rfl, if_pos hp0]
        constructor
        · rintro ⟨l, hl, hpl⟩
          exact Or.inl ⟨l, hl, hpl⟩
        · rintro (⟨l, hl, hpl⟩ | ⟨rfl, rfl⟩)
          · exact ⟨l, hl, hpl⟩
          · exact ⟨l0, List.mem_cons_self _ _, hp0⟩
      · simp only [addPair, if_pos rfl, if_neg hp0]
        constructor
        · rintro ⟨l, hl, hpl⟩
          rcases List.mem_cons.mp hl with heq | hmem
          · injection heq with hc' hl'
            subst hc'
            subst hl'
            rcases List.mem_append.mp hpl with hin | hin
            · exact Or.inl ⟨l0, List.mem_cons_self _ _, hin⟩
            · exact Or.inr ⟨rfl, List.mem_singleton.mp hin⟩
          · exact Or.inl ⟨l, List.mem_cons_of_mem _ hmem, hpl⟩
        · rintro (⟨l, hl, hpl⟩ | ⟨rfl, rfl⟩)
          · rcases List.mem_cons.mp hl with heq | hmem
            · injection heq with hc' hl'
              subst hc'
              subst hl'
              exact ⟨l ++ [p], List.mem_cons_self _ _,
                List.mem_append.mpr (Or.inl hpl)⟩
            · exact ⟨l, List.mem_cons_of_mem _ hmem, hpl⟩
          · exact ⟨l0 ++ [p'], List.mem_cons_self _ _,
              List.mem_append.mpr (Or.inr (List.mem_singleton.mpr rfl))⟩
    · simp only [addPair, if_neg hc0]
      constructor
      · rintro ⟨l, hl, hpl⟩
        rcases List.mem_cons.mp hl with heq | hmem
        · exact Or.inl ⟨l, List.mem_cons.mpr (Or.inl heq), hpl⟩
        · rcases (ih c' p').mp ⟨l, hmem, hpl⟩ with ⟨l2, hl2, hpl2⟩ | hcp
          · exact Or.inl ⟨l2, List.mem_cons_of_mem _ hl2, hpl2⟩
          · exact Or.inr hcp
      · rintro (⟨l, hl, hpl⟩ | hcp)
        · rcases List.mem_cons.mp hl with heq | hmem
          · exact ⟨l, List.mem_cons.mpr (Or.inl heq), hpl⟩
          · rcases (ih c' p').mpr (Or.inl ⟨l, hmem, hpl⟩) with ⟨l2, hl2, hpl2⟩
            exact ⟨l2, List.mem_cons_of_mem _ hl2, hpl2⟩
        · rcases (ih c' p').mpr (Or.inr hcp) with ⟨l2, hl2, hpl2⟩
          exact ⟨l2, List.mem_cons_of_mem _ hl2, hpl2⟩

theorem addPair_nodup (c p : Chars) :
    ∀ (m : List (Chars × List Chars)), (∀ cl ∈ m, List.Nodup cl.2) →
      ∀ cl ∈ addPair m c p, List.Nodup cl.2 := by
  intro m
  induction m with
  | nil =>
    intro _ cl hcl
    simp [addPair] at hcl
    subst hcl
    exact List.nodup_singleton _
  | cons hd rest ih =>
    intro hm cl hcl
    obtain ⟨c0, l0⟩ := hd
    have hl0 : l0.Nodup := hm (c0, l0) (List.mem_cons_self _ _)
    by_cases hc0 : c0 = c
    · subst hc0
      rw [addPair] at hcl
      rw [if_pos rfl] at hcl
      rcases List.mem_cons.mp hcl with heq | hmem
      · subst heq
        by_cases hp0 : p ∈ l0
        · simpa [hp0] using hl0
        · simp only [if_neg hp0]
          exact List.Nodup.append hl0 (List.nodup_singleton _)
            (by simpa [List.disjoint_singleton] using hp0)
      · exact hm cl (List.mem_cons_of_mem _ hmem)
    · rw [addPair] at hcl
      rw [if_neg hc0] at hcl
      rcases List.mem_cons.mp hcl with heq | hmem
      · subst heq
        exact hl0
      · exact ih (fun x hx => hm x (List.mem_cons_of_mem _ hx)) cl hmem

theorem addPair_keys (c p : Chars) :
    ∀ (m : List (Chars × List Chars)),
      (addPair m c p).map Prod.fst
        = if c ∈ m.map Prod.fst then m.map Prod.fst else m.map Prod.fst ++ [c] := by
  intro m
  induction m with
  | nil => simp [addPair]
  | cons hd rest ih =>
    obtain ⟨c0, l0⟩ := hd
    by_cases hc0 : c0 = c
    · subst hc0
      by_cases hp0 : p ∈ l0 <;> simp [addPair, hp0]
    · simp only [addPair, if_neg hc0, List.map_cons, ih]
      have hne : ¬(c = c0) := fun h => hc0 h.symm
      by_cases hmem : c ∈ rest.map Prod.fst <;>
        simp [List.mem_cons, hne, hmem]

theorem collectPairs_mem_iff :
    ∀ (rows : List (Option Chars × Option Chars)) (m : List (Chars × List Chars))
      (c p : Chars),
      (∃ l, (c, l) ∈ collectPairs rows m ∧ p ∈ l)
        ↔ (∃ l, (c, l) ∈ m ∧ p ∈ l)
          ∨ ((some c, some p) ∈ rows ∧ c ≠ [] ∧ p ≠ []) := by
  intro rows
  induction rows with
  | nil =>
    intro m c p
    simp [collectPairs]
  | cons row rest ih =>
    intro m c p
    match row with
    | (some c0, some p0) =>
      by_cases hemp : c0 = [] ∨ p0 = []
      · rw [show collectPairs ((some c0, some p0) :: rest) m
            = collectPairs rest (if c0 = [] ∨ p0 = [] then m else addPair m c0 p0)
          from rfl]
        rw [if_pos hemp]
        rw [ih m c p]
        constructor
        · rintro (h | h)
          · exact Or.inl h
          · exact Or.inr ⟨List.mem_cons_of_mem _ h.1, h.2⟩
        · rintro (h | ⟨hmem, hc, hp⟩)
          · exact Or.inl h
          · rcases List.mem_cons.mp hmem with heq | hmem2
            · injection heq with h1 h2
              obtain rfl := Option.some.inj h1
              obtain rfl := Option.some.inj h2
              rcases hemp with he | he
              · exact absurd he hc
              · exact absurd he hp
            · exact Or.inr ⟨hmem2, hc, hp⟩
      · rw [show collectPairs ((some c0, some p0) :: rest) m
            = collectPairs rest (if c0 = [] ∨ p0 = [] then m else addPair m c0 p0)
          from rfl]
        rw [if_neg hemp]
        rw [ih (addPair m c0 p0) c p]
        rw [addPair_mem_iff c0 p0 m c p]
        push_neg at hemp
        constructor
        · rintro ((h | ⟨rfl, rfl⟩) | h)
          · exact Or.inl h
          · exact Or.inr ⟨List.mem_cons_self _ _, hemp.1, hemp.2⟩
          · exact Or.inr ⟨List.mem_cons_of_mem _ h.1, h.2⟩
        · rintro (h | ⟨hmem, hc, hp⟩)
          · exact Or.inl (Or.inl h)
          · rcases List.mem_cons.mp hmem with heq | hmem2
            · injection heq with h1 h2
              obtain rfl := Option.some.inj h1
              obtain rfl := Option.some.inj h2
              exact Or.inl (Or.inr ⟨rfl, rfl⟩)
            · exact Or.inr ⟨hmem2, hc, hp⟩
    | (some c0, none) =>
      rw [show collectPairs ((some c0, none) :: rest) m = collectPairs rest m
        from rfl]
      rw [ih m c p]
      constructor
      · rintro (h | h)
        · exact Or.inl h
        · exact Or.inr ⟨List.mem_cons_of_mem _ h.1, h.2⟩
      · rintro (h | ⟨hmem, hc, hp⟩)
        · exact Or.inl h
        · rcases List.mem_cons.mp hmem with heq | hmem2
          · exact absurd (congrArg Prod.snd heq) (by simp)
          · exact Or.inr ⟨hmem2, hc, hp⟩
    | (none, q0) =>
      rw [show collectPairs ((none, q0) :: rest) m = collectPairs rest m from rfl]
      rw [ih m c p]
      constructor
      · rintro (h | h)
        · exact Or.inl h
        · exact Or.inr ⟨List.mem_cons_of_mem _ h.1, h.2⟩
      · rintro (h | ⟨hmem, hc, hp⟩)
        · exact Or.inl h
        · rcases List.mem_cons.mp hmem with heq | hmem2
          · exact absurd (congrArg Prod.fst heq) (by simp)
          · exact Or.inr ⟨hmem2, hc, hp⟩

theorem collectPairs_nodup :
    ∀ (rows : List (Option Chars × Option Chars)) (m : List (Chars × List Chars)),
      (∀ cl ∈ m, List.Nodup cl.2) →
      ∀ cl ∈ collectPairs rows m, List.Nodup cl.2 := by
  intro rows
  induction rows with
  | nil => intro m hm; exact hm
  | cons row rest ih =>
    intro m hm
    match row with
    | (some c0, some p0) =>
      by_cases hemp : c0 = [] ∨ p0 = []
      · rw [show collectPairs ((some c0, some p0) :: rest) m
            = collectPairs rest (if c0 = [] ∨ p0 = [] then m else addPair m c0 p0)
          from rfl, if_pos hemp]
        exact ih m hm
      · rw [show collectPairs ((some c0, some p0) :: rest) m
            = collectPairs rest (if c0 = [] ∨ p0 = [] then m else addPair m c0 p0)
          from rfl, if_neg hemp]
        exact ih _ (addPair_nodup c0 p0 m hm)
    | (some c0, none) => exact ih m hm
    | (none, q0) => exact ih m hm

theorem collectPairs_keys_nodup :
    ∀ (rows : List (Option Chars × Option Chars)) (m : List (Chars × List Chars)),
      (m.map Prod.fst).Nodup →
      ((collectPairs rows m).map Prod.fst).Nodup := by
  intro rows
  induction rows with
  | nil => intro m hm; exact hm
  | cons row rest ih =>
    intro m hm
    match row with
    | (some c0, some p0) =>
      by_cases hemp : c0 = [] ∨ p0 = []
      · rw [show collectPairs ((some c0, some p0) :: rest) m
            = collectPairs rest (if c0 = [] ∨ p0 = [] then m else addPair m c0 p0)
          from rfl, if_pos hemp]
        exact ih m hm
      · rw [show collectPairs ((some c0, some p0) :: rest) m
            = collectPairs rest (if c0 = [] ∨ p0 = [] then m else addPair m c0 p0)
          from rfl, if_neg hemp]
        refine ih _ ?_
        rw [addPair_keys]
        by_cases hmem : c0 ∈ m.map Prod.fst
        · rw [if_pos hmem]
          exact hm
        · rw [if_neg hmem]
          rw [List.nodup_append]
          refine ⟨hm, List.nodup_singleton _, ?_⟩
          intro x hx hx2
          rw [List.mem_singleton] at hx2
          subst hx2
          exact hmem hx
    | (some c0, none) => exact ih m hm
    | (none, q0) => exact ih m hm

theorem sorted_lexLe_insertionSort (l : List Chars) :
    List.Sorted (fun a b : Chars => lexLe a b = true)
      (List.insertionSort (fun a b : Chars => lexLe a b = true) l) := by
  haveI : IsTotal Chars (fun a b : Chars => lexLe a b = true) := ⟨lexLe_total⟩
  haveI : IsTrans Chars (fun a b : Chars => lexLe a b = true) :=
    ⟨fun a b c => lexLe_trans a b c⟩
  exact List.sorted_insertionSort _ l

/-- C7: for every fetched row set, `get_template_filters`' grouping maps
each category to a list of product types that is free of duplicates and
sorted lexicographically (code-point order, as Python `sorted` on `str`);
and a product type appears under a category exactly when some fetched row
carries that (category, product_type) pair with both fields present and
non-empty (rows with a missing or empty field are skipped by the
`if cat and prod` existence check). -/
theorem c7_filters_sorted_distinct_grouping
    (rows : List (Option Chars × Option Chars)) :
    (∀ cat l, (cat, l) ∈ buildFilters rows →
      List.Sorted (fun a b : Chars => lexLe a b = true) l ∧ l.Nodup)
    ∧ (∀ cat p, (∃ l, (cat, l) ∈ buildFilters rows ∧ p ∈ l)
        ↔ ((some cat, some p) ∈ rows ∧ cat ≠ [] ∧ p ≠ [])) := by
  constructor
  · intro cat l hmem
    rw [buildFilters] at hmem
    obtain ⟨⟨c0, l0⟩, hcl, heq⟩ := List.mem_map.mp hmem
    injection heq with h1 h2
    subst h1
    subst h2
    constructor
    · exact sorted_lexLe_insertionSort l0
    · have hnd : l0.Nodup :=
        collectPairs_nodup rows [] (by simp) (c0, l0) hcl
      exact (List.perm_insertionSort _ l0).nodup_iff.mpr hnd
  · intro cat p
    rw [buildFilters]
    constructor
    · rintro ⟨l, hmem, hpl⟩
      obtain ⟨⟨c0, l0⟩, hcl, heq⟩ := List.mem_map.mp hmem
      injection heq with h1 h2
      subst h1
      subst h2
      have hp0 : p ∈ l0 := (List.mem_insertionSort _).mp hpl
      have := (collectPairs_mem_iff rows [] c0 p).mp ⟨l0, hcl, hp0⟩
      simpa using this
    · intro h
      have := (collectPairs_mem_iff rows [] cat p).mpr (Or.inr h)
      obtain ⟨l0, hcl, hp0⟩ := this
      refine ⟨List.insertionSort (fun a b : Chars => lexLe a b = true) l0, ?_, ?_⟩
      · exact List.mem_map.mpr ⟨(cat, l0), hcl, rfl⟩
      · exact (List.mem_insertionSort _).mpr hp0

/-- C7 witness: a concrete row set with duplicates, an unordered pair, a
missing field and an empty field. -/
theorem c7_witness :
    (List.Sorted (fun a b : Chars => lexLe a b = true) ["a".data, "b".data]
      ∧ List.Nodup ["a".data, "b".data])
    ∧ (∃ l, ("k".data, l) ∈ buildFilters
        [(some "k".data, some "b".data), (some "k".data, some "a".data),
          (some "k".data, some "b".data), (none, some "x".data),
          (some "w".data, some [])]
        ∧ "a".data ∈ l) := by
  have h := c7_filters_sorted_distinct_grouping
    [(some "k".data, some "b".data), (some "k".data, some "a".data),
      (some "k".data, some "b".data), (none, some "x".data),
      (some "w".data, some [])]
  refine ⟨h.1 "k".data ["a".data, "b".data] (by decide), ?_⟩
  exact (h.2 "k".data "a".data).mpr (by decide)

/-! ## Claim C9 -/

theorem dropWhile_append_all {p : Char → Bool} :
    ∀ (a b : Chars), (∀ c ∈ a, p c = true) →
      (a ++ b).dropWhile p = b.dropWhile p := by
  intro a
  induction a with
  | nil => intro b _; rfl
  | cons x xs ih =>
    intro b h
    have hx : p x = true := h x (by simp)
    rw [List.cons_append]
    rw [show (x :: (xs ++ b)).dropWhile p = (xs ++ b).dropWhile p by
      simp [List.dropWhile, hx]]
    exact ih b (fun c hc => h c (by simp [hc]))

theorem dropWhile_cons_of_neg {p : Char → Bool} (c : Char) (l : Chars)
    (h : p c = false) : (c :: l).dropWhile p = c :: l := by
  simp [List.dropWhile, h]

theorem takeWhile_all {p : Char → Bool} :
    ∀ (a : Chars), (∀ c ∈ a, p c = true) → a.takeWhile p = a := by
  intro a
  induction a with
  | nil => intro _; rfl
  | cons x xs ih =>
    intro h
    have hx : p x = true := h x (by simp)
    rw [show (x :: xs).takeWhile p = x :: xs.takeWhile p by simp [List.takeWhile, hx]]
    rw [ih (fun c hc => h c (by simp [hc]))]

theorem afterFirstSlash_append :
    ∀ (a b : Chars), '/' ∉ a → afterFirstSlash (a ++ '/' :: b) = some b := by
  intro a
  induction a with
  | nil => intro b _; rfl
  | cons x xs ih =>
    intro b h
    have hx : x ≠ '/' := fun he => h (he ▸ List.mem_cons_self _ _)
    rw [List.cons_append]
    rw [show afterFirstSlash (x :: (xs ++ '/' :: b))
        = afterFirstSlash (xs ++ '/' :: b) by
      simp [afterFirstSlash, hx]]
    exact ih b (fun hm => h (List.mem_cons_of_mem _ hm))

theorem extractBlobName_bucket_url (bucket f : Chars)
    (hb : bucket ≠ []) (hbs : '/' ∉ bucket) (hbq : '?' ∉ bucket)
    (hbh : '#' ∉ bucket) (hfq : '?' ∉ f) (hfh : '#' ∉ f) :
    extractBlobName (bucketUrlBase bucket ++ f) = some f := by
  have hsplit : bucketUrlBase bucket ++ f
      = "https://".data ++ ("storage.googleapis.com".data ++ ('/' :: (bucket ++ '/' :: f))) := by
    unfold bucketUrlBase
    rw [show "https://storage.googleapis.com/".data
        = "https://".data ++ ("storage.googleapis.com".data ++ ['/']) by decide]
    simp
  rw [hsplit]
  unfold extractBlobName urlPath
  rw [if_pos (isPrefixOf_append_self _ _)]
  rw [show (8 : Nat) = "https://".data.length from rfl, List.drop_left]
  rw [dropWhile_append_all _ _ (by decide)]
  rw [dropWhile_cons_of_neg _ _ (by decide)]
  rw [takeWhile_all _ ?hall]
  case hall =>
    intro c hc
    simp only [List.mem_cons, List.mem_append] at hc
    have hq : c ≠ '?' := by
      rcases hc with rfl | h | rfl | h
      · decide
      · exact fun he => hbq (he ▸ h)
      · decide
      · exact fun he => hfq (he ▸ h)
    have hh : c ≠ '#' := by
      rcases hc with rfl | h | rfl | h
      · decide
      · exact fun he => hbh (he ▸ h)
      · decide
      · exact fun he => hfh (he ▸ h)
    simp [hq, hh]
  rw [show List.dropWhile (fun c => c == '/') ('/' :: (bucket ++ '/' :: f))
      = List.dropWhile (fun c => c == '/') (bucket ++ '/' :: f) by
    simp [List.dropWhile]]
  obtain ⟨b0, bs, rfl⟩ : ∃ b0 bs, bucket = b0 :: bs := by
    cases bucket with
    | nil => exact absurd rfl hb
    | cons x xs => exact ⟨x, xs, rfl⟩
  have hb0 : b0 ≠ '/' := fun he => hbs (he ▸ List.mem_cons_self _ _)
  rw [List.cons_append]
  rw [dropWhile_cons_of_neg _ _ (by simp [hb0])]
  rw [← List.cons_append]
  exact afterFirstSlash_append _ _ hbs

/-- The signed-URL key minted by the pipeline for a prefix containing `?`:
the `urlparse`-based recovery truncates at the query separator. -/
theorem c9_key_mismatch_example :
    (processMedia gOk sbOk envOk [5] "a?b".data "png".data "image/png".data
        "u".data "image".data "pr".data none).1
      = .completed "https://storage.googleapis.com/bkt/a?b_00000000.png".data
          { key := "a".data, expiration := 3600 }
    ∧ "a".data ≠ gcsFilename "a?b".data "00000000".data "png".data :=
  ⟨rfl, by decide⟩

/-- C9 (amended): for every prefix and extension (and random key hex) free
of the URL-delimiter characters `?` and `#`, and every bucket name that is
non-empty and free of `/`, `?`, `#`, the persistence pipeline mints the
signed URL for exactly the object key appearing in the asset's public URL:
stripping the leading slash from the URL path and dropping the first path
segment (the bucket) recovers precisely the key the bytes were uploaded
under, for every payload and metadata-store outcome. -/
theorem c9_signed_url_key_matches_public_url (g : GCSState) (sb : SupabaseState)
    (env : SaveEnv) (data : Bytes)
    (pre ext mime userId atype promptText : Chars) (pid : Option Nat)
    (hc : g.clientOk = true) (hw : env.writeOk = true)
    (hbne : g.bucketName ≠ []) (hbs : '/' ∉ g.bucketName)
    (hbq : '?' ∉ g.bucketName) (hbh : '#' ∉ g.bucketName)
    (hpq : '?' ∉ pre) (hph : '#' ∉ pre)
    (hxq : '?' ∉ env.hexv) (hxh : '#' ∉ env.hexv)
    (heq2 : '?' ∉ ext) (heh : '#' ∉ ext) :
    (processMedia g sb env data pre ext mime userId atype promptText pid).1
      = .completed (bucketUrlBase g.bucketName ++ gcsFilename pre env.hexv ext)
          (generate_signed_url (gcsFilename pre env.hexv ext))
    ∧ (processMedia g sb env data pre ext mime userId atype promptText pid).2.1
      = { g with objects := (gcsFilename pre env.hexv ext, data) :: g.objects }
    ∧ extractBlobName (bucketUrlBase g.bucketName ++ gcsFilename pre env.hexv ext)
      = some (gcsFilename pre env.hexv ext) := by
  have hfq : '?' ∉ gcsFilename pre env.hexv ext := by
    unfold gcsFilename
    intro hmem
    rcases List.mem_append.mp hmem with h | h
    · rcases List.mem_append.mp h with h | h
      · exact hpq h
      · rcases List.mem_cons.mp h with h2 | h
        · exact absurd h2 (by decide)
        · exact hxq h
    · rcases List.mem_cons.mp h with h2 | h
      · exact absurd h2 (by decide)
      · exact heq2 h
  have hfh : '#' ∉ gcsFilename pre env.hexv ext := by
    unfold gcsFilename
    intro hmem
    rcases List.mem_append.mp hmem with h | h
    · rcases List.mem_append.mp h with h | h
      · exact hph h
      · rcases List.mem_cons.mp h with h2 | h
        · exact absurd h2 (by decide)
        · exact hxh h
    · rcases List.mem_cons.mp h with h2 | h
      · exact absurd h2 (by decide)
      · exact heh h
  have hkey := extractBlobName_bucket_url g.bucketName (gcsFilename pre env.hexv ext)
    hbne hbs hbq hbh hfq hfh
  refine ⟨?_, ?_, hkey⟩ <;>
    · unfold processMedia saveAsset upload_bytes
      simp only [hc, hw, Bool.true_eq_false, if_false, hkey]

/-- C9 witness: the amended key consistency at concrete inputs. -/
theorem c9_witness :
    (processMedia gOk sbOk envOk [1, 2] "u/t2i".data "png".data
        "image/png".data "u".data "image".data "pr".data none).1
      = .completed (bucketUrlBase gOk.bucketName ++
            gcsFilename "u/t2i".data envOk.hexv "png".data)
          (generate_signed_url (gcsFilename "u/t2i".data envOk.hexv "png".data))
    ∧ (processMedia gOk sbOk envOk [1, 2] "u/t2i".data "png".data
        "image/png".data "u".data "image".data "pr".data none).2.1
      = { gOk with objects :=
          (gcsFilename "u/t2i".data envOk.hexv "png".data, [1, 2]) :: gOk.objects }
    ∧ extractBlobName (bucketUrlBase gOk.bucketName ++
        gcsFilename "u/t2i".data envOk.hexv "png".data)
      = some (gcsFilename "u/t2i".data envOk.hexv "png".data) :=
  c9_signed_url_key_matches_public_url gOk sbOk envOk [1, 2] "u/t2i".data
    "png".data "image/png".data "u".data "image".data "pr".data none
    rfl rfl (by decide) (by decide) (by decide) (by decide) (by decide)
    (by decide) (by decide) (by decide) (by decide) (by decide)

/-! ## Claim C10 -/

theorem lookupF_of_mem (k : Chars) (v : FVal) :
    ∀ (d : List (Chars × FVal)), (d.map Prod.fst).Nodup → (k, v) ∈ d →
      lookupF k d = some v := by
  intro d
  induction d with
  | nil => intro _ h; exact absurd h (List.not_mem_nil _)
  | cons hd rest ih =>
    intro hnd hm
    obtain ⟨k0, v0⟩ := hd
    rcases List.mem_cons.mp hm with heq | hmem
    · injection heq with h1 h2
      subst h1
      subst h2
      simp [lookupF]
    · have hkeys := List.nodup_cons.mp
        (show (k0 :: rest.map Prod.fst).Nodup from hnd)
      have hk : k0 ≠ k := by
        intro he
        subst he
        exact hkeys.1 (List.mem_map.mpr ⟨(k0, v), hmem, rfl⟩)
      rw [show lookupF k ((k0, v0) :: rest)
          = if k0 = k then some v0 else lookupF k rest from rfl]
      rw [if_neg hk]
      exact ih hkeys.2 hmem

/-- C10: if the template-filters read succeeds but the resulting
category-to-product-types mapping contains a category literally named
"error", the GET filters handler reports HTTP 500 with that category's
product-type list as the detail, instead of returning the successful
mapping — the in-band `"error" in result` check cannot tell this success
apart from a gateway failure. -/
theorem c10_error_category_reports_500 (s : SupabaseState)
    (rows : List (Option Chars × Option Chars)) (l : List Chars)
    (hc : s.clientOk = true)
    (hmem : ("error".data, l) ∈ buildFilters rows) :
    filters_route s (.ok rows) = .http500 (.fl l) := by
  have hkeys : ((buildFilters rows).map Prod.fst).Nodup := by
    unfold buildFilters
    rw [List.map_map]
    rw [show (Prod.fst ∘ fun cl : Chars × List Chars =>
        (cl.1, List.insertionSort (fun a b : Chars => lexLe a b = true) cl.2))
      = Prod.fst from rfl]
    exact collectPairs_keys_nodup rows [] (by simp)
  have hdkeys : ((toDict (.val (buildFilters rows))).map Prod.fst).Nodup := by
    unfold toDict
    rw [List.map_map]
    rw [show (Prod.fst ∘ fun cl : Chars × List Chars => (cl.1, FVal.fl cl.2))
      = Prod.fst from rfl]
    exact hkeys
  have hdmem : ("error".data, FVal.fl l) ∈ toDict (.val (buildFilters rows)) :=
    List.mem_map.mpr ⟨("error".data, l), hmem, rfl⟩
  unfold filters_route get_template_filters
  simp only [hc, Bool.true_eq_false, if_false]
  rw [lookupF_of_mem _ _ _ hdkeys hdmem]

/-- C10 witness: one fetched row whose category is literally "error". -/
theorem c10_witness :
    filters_route sbOk (.ok [(some "error".data, some "T1".data)])
      = .http500 (.fl ["T1".data]) :=
  c10_error_category_reports_500 sbOk [(some "error".data, some "T1".data)]
    ["T1".data] rfl (by decide)

end ContentStudio
